import Mathlib

/-!
Shallow embedding of the MACD trading system
(`macd_strategy.py`, `data_collector.py`, `trading_engine.py`).

Numeric values (prices, balances, EMA values) are modelled as rationals
(the Python code uses floats; all claims under scrutiny concern the exact
arithmetic the code spells out).  Times are modelled as integers (abstract
time units; the Python code stores millisecond timestamps).
-/

namespace MACDSystem

/-! ## `macd_strategy.py` -/

/-- Helper for `MACDStrategy._ema`: the tail of the EMA sequence.
Mirrors the Python loop `for i in range(period, len(data)):
ema_value = data[i] * multiplier + ema[-1] * (1 - multiplier)`. -/
def emaFrom (multiplier : ℚ) : ℚ → List ℚ → List ℚ
  | _, [] => []
  | prev, x :: xs =>
      (x * multiplier + prev * (1 - multiplier)) ::
        emaFrom multiplier (x * multiplier + prev * (1 - multiplier)) xs

/-- `MACDStrategy._ema(data, period)` (macd_strategy.py lines 37-55):
fewer than `period` elements gives an all-`none` list; otherwise
`period - 1` leading `none`s, then the simple average of the first
`period` elements, then the EMA recurrence with `k = 2/(period+1)`. -/
def ema (data : List ℚ) (period : ℕ) : List (Option ℚ) :=
  if data.length < period then List.replicate data.length none
  else
    let multiplier : ℚ := 2 / (period + 1)
    let sma : ℚ := (data.take period).sum / period
    List.replicate (period - 1) none ++
      some sma :: (emaFrom multiplier sma (data.drop period)).map some

/-- The crossover decision of `MACDStrategy.add_kline`
(macd_strategy.py lines 125-133): compares the previous *defined*
histogram (when one exists) with the current one. -/
def crossSignal (prev : Option ℚ) (curr : ℚ) : String :=
  match prev with
  | none => "NONE"
  | some p =>
      if p < 0 ∧ curr ≥ 0 then "GOLDEN_CROSS"
      else if p ≥ 0 ∧ curr < 0 then "DEAD_CROSS"
      else "NONE"

/-- Python `round` (half-to-even) of a rational, at integer resolution. -/
def pyRound (x : ℚ) : ℤ :=
  let f : ℤ := ⌊x⌋
  let r : ℚ := x - f
  if r < 1/2 then f
  else if 1/2 < r then f + 1
  else if f % 2 = 0 then f else f + 1

/-- `round(x, 8)` as used on the reported MACD fields. -/
def round8 (x : ℚ) : ℚ := (pyRound (x * 10^8) : ℚ) / 10^8

structure Kline where
  open_price : ℚ
  high : ℚ
  low : ℚ
  close : ℚ
  volume : ℚ
deriving DecidableEq, Repr

/-- `MACDSignal` dataclass (timestamp omitted: an opaque wall-clock value
none of the verified properties inspect). -/
structure MACDSignal where
  close : ℚ
  macd : ℚ
  signal : ℚ
  histogram : ℚ
  signal_type : String
deriving DecidableEq, Repr

structure MACDStrategy where
  fast_period : ℕ := 5
  slow_period : ℕ := 10
  signal_period : ℕ := 3
  klines_history : List Kline := []
  macd_history : List MACDSignal := []
  prev_histogram : Option ℚ := none
deriving Repr

/-- The MACD line (`DIF`) of `add_kline`: pointwise `fast - slow`
where both EMAs are defined (macd_strategy.py lines 100-103). -/
def macdLine (closes : List ℚ) (fast slow : ℕ) : List (Option ℚ) :=
  ((ema closes fast).zip (ema closes slow)).map fun p =>
    match p with
    | (some f, some s) => some (f - s)
    | _ => none

/-- The defined MACD values (`macd_values = [v for v in macd_line if v is not None]`). -/
def macdValues (closes : List ℚ) (fast slow : ℕ) : List ℚ :=
  (macdLine closes fast slow).filterMap id

/-- The current histogram value computed by `add_kline` once enough data
has accumulated (macd_strategy.py lines 118-123). -/
def currentHistogram (closes : List ℚ) (fast slow sig : ℕ) : ℚ :=
  let mv := macdValues closes fast slow
  let signal_line := ema mv sig
  let current_macd := mv.getLast?.getD 0
  let current_signal := ((signal_line.getLast?.getD none).getD 0)
  current_macd - current_signal

/-- `MACDStrategy.add_kline` (macd_strategy.py lines 57-147), returning the
emitted signal and the updated strategy state.  The two early returns
(insufficient history) do not append to `macd_history` nor touch
`prev_histogram`, exactly as in the source. -/
def addKline (s : MACDStrategy) (k : Kline) : MACDSignal × MACDStrategy :=
  let s := { s with klines_history := s.klines_history ++ [k] }
  let closes : List ℚ := s.klines_history.map Kline.close
  if closes.length < s.slow_period + s.signal_period - 1 then
    (⟨k.close, 0, 0, 0, "NONE"⟩, s)
  else
    let mv := macdValues closes s.fast_period s.slow_period
    if mv.length < s.signal_period then
      (⟨k.close, 0, 0, 0, "NONE"⟩, s)
    else
      let ch := currentHistogram closes s.fast_period s.slow_period s.signal_period
      let kind := crossSignal s.prev_histogram ch
      let data : MACDSignal :=
        ⟨k.close, round8 (mv.getLast?.getD 0),
          round8 ((((ema mv s.signal_period).getLast?.getD none).getD 0)),
          round8 ch, kind⟩
      (data, { s with prev_histogram := some ch,
                      macd_history := s.macd_history ++ [data] })

/-- `MACDStrategy.get_macd_history(limit)` (macd_strategy.py lines 155-159):
`if limit:` is Python truthiness, so `0` behaves like `None`. -/
def getMacdHistory (s : MACDStrategy) (limit : Option ℕ) : List MACDSignal :=
  match limit with
  | some n => if n ≠ 0 then s.macd_history.drop (s.macd_history.length - n)
              else s.macd_history
  | none => s.macd_history

/-! ## `data_collector.py` -/

/-- One kline of `KlineCollector` (a Python dict with these keys).
Times are abstract integer instants (the source stores epoch ms). -/
structure KBar where
  open_time : ℤ
  open_price : ℚ
  high : ℚ
  low : ℚ
  close : ℚ
  volume : ℚ
  close_time : ℤ
deriving DecidableEq, Repr

/-- `KlineCollector` state.  The per-symbol Python dicts are modelled as
association lists; `klines` is a `defaultdict(list)`. -/
structure KlineCollector where
  kline_interval : ℤ := 30
  klines : List (String × List KBar) := []
  current_kline : List (String × KBar) := []
  last_update : List (String × ℤ) := []
deriving Repr

/-- Association-list lookup (Python `d[k]` / `k in d`). -/
def alookup {α : Type} (m : List (String × α)) (k : String) : Option α :=
  match m with
  | [] => none
  | (k', v) :: rest => if k' = k then some v else alookup rest k

/-- Association-list store (Python `d[k] = v`). -/
def astore {α : Type} (m : List (String × α)) (k : String) (v : α) :
    List (String × α) :=
  match m with
  | [] => [(k, v)]
  | (k', v') :: rest =>
      if k' = k then (k', v) :: rest else (k', v') :: astore rest k v

/-- Association-list delete (Python `del d[k]`). -/
def aerase {α : Type} (m : List (String × α)) (k : String) :
    List (String × α) :=
  match m with
  | [] => []
  | (k', v') :: rest => if k' = k then rest else (k', v') :: aerase rest k

/-- `KlineCollector._update_kline` (data_collector.py lines 103-163), with
the fetched snapshot's `close` price and the current instant passed in
(the Python method obtains them from the exchange client and the wall
clock).  A fetch failure skips the tick entirely, i.e. the state map is
simply not applied. -/
def updateKline (c : KlineCollector) (symbol : String) (price_close : ℚ)
    (now : ℤ) : KlineCollector :=
  match alookup c.current_kline symbol with
  | none =>
      { c with
        current_kline := astore c.current_kline symbol
          ⟨now, price_close, price_close, price_close, price_close, 0, now⟩,
        last_update := astore c.last_update symbol now }
  | some bar =>
      let last : ℤ := (alookup c.last_update symbol).getD now
      let time_diff : ℤ := now - last
      if time_diff ≥ c.kline_interval then
        let finalized : KBar := { bar with close_time := last }
        let hist := (alookup c.klines symbol).getD [] ++ [finalized]
        let hist := if hist.length > 1000 then hist.drop (hist.length - 1000)
                    else hist
        { c with
          klines := astore c.klines symbol hist,
          current_kline := astore c.current_kline symbol
            ⟨now, price_close, price_close, price_close, price_close, 0, now⟩,
          last_update := astore c.last_update symbol now }
      else
        { c with
          current_kline := astore c.current_kline symbol
            { bar with high := max bar.high price_close,
                       low := min bar.low price_close,
                       close := price_close,
                       close_time := now } }

/-- `KlineCollector.get_klines(symbol, limit)` (data_collector.py lines
45-50): `if limit:` is Python truthiness, so a `0` limit returns the whole
history. -/
def getKlines (c : KlineCollector) (symbol : String) (limit : Option ℕ) :
    List KBar :=
  let klines := (alookup c.klines symbol).getD []
  match limit with
  | some n => if n ≠ 0 then klines.drop (klines.length - n) else klines
  | none => klines

/-! ## `trading_engine.py` -/

inductive OrderStatus
  | PENDING | OPEN | CLOSED | CANCELLED | FAILED
deriving DecidableEq, Repr

inductive PositionSide
  | LONG | SHORT
deriving DecidableEq, Repr

/-- `Trade` dataclass (trading_engine.py lines 27-42).  `trade_id` is the
uuid the engine draws; times are abstract instants. -/
structure Trade where
  trade_id : String
  symbol : String
  side : PositionSide
  entry_price : ℚ
  entry_quantity : ℚ
  entry_time : ℤ
  exit_price : Option ℚ := none
  exit_quantity : Option ℚ := none
  exit_time : Option ℤ := none
  profit_loss : ℚ := 0
  profit_loss_pct : ℚ := 0
  status : OrderStatus := .OPEN
  macd_signal : String := ""
deriving DecidableEq, Repr

/-- `StrategyStats` dataclass (trading_engine.py lines 62-76). -/
structure StrategyStats where
  initial_capital : ℚ := 0
  current_capital : ℚ := 0
  available_balance : ℚ := 0
  total_trades : ℕ := 0
  winning_trades : ℕ := 0
  losing_trades : ℕ := 0
  total_profit_loss : ℚ := 0
  profit_loss_pct : ℚ := 0
  win_rate : ℚ := 0
  max_drawdown : ℚ := 0
  roi : ℚ := 0
  sharpe_ratio : ℚ := 0
deriving DecidableEq, Repr

structure EquityPoint where
  timestamp : ℤ
  equity : ℚ
  available : ℚ
deriving DecidableEq, Repr

/-- `TradingEngine` portfolio state (trading_engine.py lines 95-129).
`network_latency` is omitted: it is an I/O-measured observability value no
ledger logic reads. -/
structure TradingEngine where
  initial_capital : ℚ
  available_balance : ℚ
  total_capital : ℚ
  trades : List (String × List Trade)
  active_positions : List (String × Trade)
  closed_trades : List Trade
  equity_curve : List EquityPoint
  stats : StrategyStats
  last_error : Option String
deriving Repr

/-- `TradingEngine.__init__` (with the wall-clock instant passed in). -/
def TradingEngine.init (initial_capital : ℚ) (now : ℤ) : TradingEngine :=
  { initial_capital := initial_capital
    available_balance := initial_capital
    total_capital := initial_capital
    trades := []
    active_positions := []
    closed_trades := []
    equity_curve := [⟨now, initial_capital, initial_capital⟩]
    stats := { initial_capital := initial_capital,
               current_capital := initial_capital,
               available_balance := initial_capital }
    last_error := none }

/-- `TradingEngine._format_quantity` (trading_engine.py lines 156-166):
truncate to the symbol's lot precision (3 for BTCUSDT/ETHUSDT/LTCUSDT,
2 for BNBUSDT, default 3). -/
def formatQuantity (symbol : String) (quantity : ℚ) : ℚ :=
  let p : ℕ :=
    if symbol = "BTCUSDT" then 3
    else if symbol = "ETHUSDT" then 3
    else if symbol = "BNBUSDT" then 2
    else if symbol = "LTCUSDT" then 3
    else 3
  (⌊quantity * 10 ^ p⌋ : ℚ) / 10 ^ p

/-- Outcome of `BinanceSimulator.place_order` as observed by the engine:
`noResp` models a falsy response, `failed` a `{'status': 'FAILED'}` reply,
`ok` an accepted order. -/
inductive OrderResp
  | noResp | failed (err : String) | ok
deriving DecidableEq, Repr

/-- `TradingEngine.open_position` (trading_engine.py lines 168-238).
The exchange collaborator's replies (`get_futures_price`, `place_order`),
the drawn uuid and the wall-clock instant are passed as inputs.  Returns
the optional `Trade` together with the updated engine state. -/
def openPosition (e : TradingEngine) (symbol : String) (side : PositionSide)
    (macd_signal : String) (price : Option ℚ) (order : OrderResp)
    (tid : String) (now : ℤ) : Option Trade × TradingEngine :=
  let e := { e with last_error := none }
  match price with
  | none => (none, { e with last_error := some ("no futures price: " ++ symbol) })
  | some current_price =>
    if current_price = 0 then
      (none, { e with last_error := some ("no futures price: " ++ symbol) })
    else
      let allocation_usdt := e.available_balance * (1 / 2)
      if allocation_usdt < 10 then
        (none, { e with last_error := some "insufficient balance" })
      else
        let entry_quantity := formatQuantity symbol (allocation_usdt / current_price)
        match order with
        | .noResp => (none, { e with last_error := some "no order response" })
        | .failed err => (none, { e with last_error := some err })
        | .ok =>
            let trade : Trade :=
              { trade_id := tid, symbol := symbol, side := side,
                entry_price := current_price, entry_quantity := entry_quantity,
                entry_time := now, macd_signal := macd_signal,
                status := .OPEN }
            (some trade,
             { e with
               available_balance := e.available_balance - allocation_usdt,
               trades := astore e.trades symbol
                 ((alookup e.trades symbol).getD [] ++ [trade]),
               active_positions := astore e.active_positions symbol trade,
               stats := { e.stats with total_trades := e.stats.total_trades + 1 } })

/-- The maximum-drawdown rescan of `TradingEngine._update_stats`
(trading_engine.py lines 338-348): running peak seeded with the first
equity, `dd = (peak - equity)/peak`, keep the maximum (starting at 0). -/
def computeMaxDrawdown (first : ℚ) (curve : List ℚ) : ℚ :=
  (curve.foldl
    (fun (acc : ℚ × ℚ) eq =>
      let peak := if eq > acc.1 then eq else acc.1
      let dd := (peak - eq) / peak
      (peak, if dd > acc.2 then dd else acc.2))
    (first, 0)).2

/-- `TradingEngine._update_stats` (trading_engine.py lines 332-348). -/
def updateStats (e : TradingEngine) : TradingEngine :=
  let stats :=
    { e.stats with
      current_capital := e.total_capital,
      available_balance := e.available_balance,
      roi := (e.total_capital - e.initial_capital) / e.initial_capital * 100 }
  let stats :=
    match e.equity_curve with
    | [] => stats
    | p :: _ =>
        { stats with
          max_drawdown := computeMaxDrawdown p.equity
            (e.equity_curve.map EquityPoint.equity) }
  { e with stats := stats }

/-- `TradingEngine.close_position` (trading_engine.py lines 240-330).
In the source the looked-up `Trade` object is mutated in place and is
aliased from `trades[symbol]`; here the aliased log entry is rewritten by
its (unique) `trade_id`. -/
def closePosition (e : TradingEngine) (symbol : String) (macd_signal : String)
    (price : Option ℚ) (order : OrderResp) (now : ℤ) :
    Option Trade × TradingEngine :=
  let e := { e with last_error := none }
  match alookup e.active_positions symbol with
  | none => (none, { e with last_error := some (symbol ++ ": no active position") })
  | some trade =>
      match price with
      | none => (none, { e with last_error := some ("no futures price: " ++ symbol) })
      | some current_price =>
        if current_price = 0 then
          (none, { e with last_error := some ("no futures price: " ++ symbol) })
        else
          match order with
          | .noResp => (none, { e with last_error := some "no close response" })
          | .failed err => (none, { e with last_error := some err })
          | .ok =>
              let profit_loss :=
                match trade.side with
                | .LONG => (current_price - trade.entry_price) * trade.entry_quantity
                | .SHORT => (trade.entry_price - current_price) * trade.entry_quantity
              let trade :=
                { trade with
                  exit_price := some current_price,
                  exit_quantity := some trade.entry_quantity,
                  exit_time := some now,
                  status := .CLOSED,
                  profit_loss := profit_loss,
                  profit_loss_pct :=
                    profit_loss / (trade.entry_price * trade.entry_quantity) * 100 }
              let exit_amount := current_price * trade.entry_quantity
              let stats := e.stats
              let stats :=
                if profit_loss > 0 then
                  { stats with winning_trades := stats.winning_trades + 1 }
                else if profit_loss < 0 then
                  { stats with losing_trades := stats.losing_trades + 1 }
                else stats
              let stats :=
                { stats with
                  total_profit_loss := stats.total_profit_loss + profit_loss }
              let stats :=
                { stats with
                  profit_loss_pct := stats.total_profit_loss / e.initial_capital * 100 }
              let stats :=
                if stats.total_trades > 0 then
                  { stats with
                    win_rate := (stats.winning_trades : ℚ) / stats.total_trades }
                else stats
              let e :=
                { e with
                  available_balance := e.available_balance + exit_amount,
                  total_capital := e.total_capital + profit_loss,
                  stats := stats,
                  trades := e.trades.map fun p =>
                    (p.1, p.2.map fun t =>
                      if t.trade_id = trade.trade_id then trade else t),
                  active_positions := aerase e.active_positions symbol,
                  closed_trades := e.closed_trades ++ [trade],
                  equity_curve := e.equity_curve ++
                    [⟨now, e.total_capital + profit_loss,
                      e.available_balance + exit_amount⟩] }
              (some trade, updateStats e)

/-- `TradingEngine.get_closed_trades(limit)` (trading_engine.py lines
354-357): `if limit` truthiness again; the Python method then renders each
trade as a dict, a per-element projection that does not change which
trades are selected, so the selected list itself is returned here. -/
def getClosedTrades (e : TradingEngine) (limit : Option ℕ) : List Trade :=
  match limit with
  | some n => if n ≠ 0 then e.closed_trades.drop (e.closed_trades.length - n)
              else e.closed_trades
  | none => e.closed_trades

/-! ## Concrete scenarios and specification-side definitions -/

/-- A bar whose OHLC fields all equal one close price, as fed by the
driver loop in `app.py` (which forwards snapshot-derived klines). -/
def kb (c : ℚ) : Kline := ⟨c, c, c, c, 0⟩

/-- Feed a series of close prices to the strategy, one bar per close
(the warm-up loop of `app.py` lines 61-70). -/
def feedCloses (s : MACDStrategy) (cs : List ℚ) : MACDStrategy :=
  cs.foldl (fun s c => (addKline s (kb c)).2) s

/-- Synthetic close series whose defined histograms have the sign
sequence neg, neg, pos, pos, neg under periods (1, 3, 2). -/
def c5closes : List ℚ := [10, 9, 7, 4, 2, 12, 20, 5]

def c5s0 : MACDStrategy := ⟨1, 3, 2, [], [], none⟩
def c5s1 : MACDStrategy := ⟨1, 3, 2, [kb 10], [], none⟩
def c5s2 : MACDStrategy := ⟨1, 3, 2, [kb 10, kb 9], [], none⟩
def c5s3 : MACDStrategy := ⟨1, 3, 2, [kb 10, kb 9, kb 7], [], none⟩
def c5r4 : MACDSignal := (addKline c5s3 (kb 4)).1
def c5s4 : MACDStrategy :=
  ⟨1, 3, 2, [kb 10, kb 9, kb 7, kb 4], [c5r4], some (-1/3)⟩
def c5r5 : MACDSignal := (addKline c5s4 (kb 2)).1
def c5s5 : MACDStrategy :=
  ⟨1, 3, 2, [kb 10, kb 9, kb 7, kb 4, kb 2], [c5r4, c5r5], some (-1/18)⟩
def c5r6 : MACDSignal := (addKline c5s5 (kb 12)).1
def c5s6 : MACDStrategy :=
  ⟨1, 3, 2, [kb 10, kb 9, kb 7, kb 4, kb 2, kb 12], [c5r4, c5r5, c5r6],
    some (217/108)⟩
def c5r7 : MACDSignal := (addKline c5s6 (kb 20)).1
def c5s7 : MACDStrategy :=
  ⟨1, 3, 2, [kb 10, kb 9, kb 7, kb 4, kb 2, kb 12, kb 20],
    [c5r4, c5r5, c5r6, c5r7], some (875/648)⟩
def c5r8 : MACDSignal := (addKline c5s7 (kb 5)).1
def c5s8 : MACDStrategy :=
  ⟨1, 3, 2, [kb 10, kb 9, kb 7, kb 4, kb 2, kb 12, kb 20, kb 5],
    [c5r4, c5r5, c5r6, c5r7, c5r8], some (-11831/3888)⟩

/-- The spec's position-lifecycle scenario: a fresh engine with initial
capital 3000. -/
def eng0 : TradingEngine := TradingEngine.init 3000 0

/-- `open_position(BTCUSDT, LONG)` at price 50000, order accepted. -/
def engOpenRes : Option Trade × TradingEngine :=
  openPosition eng0 "BTCUSDT" .LONG "GOLDEN_CROSS" (some 50000) .ok "trade-1" 1

def eng1 : TradingEngine := engOpenRes.2

/-- `close_position(BTCUSDT)` at price 51000, order accepted. -/
def engCloseRes : Option Trade × TradingEngine :=
  closePosition eng1 "BTCUSDT" "DEAD_CROSS" (some 51000) .ok 2

/-- A second `open_position(BTCUSDT, LONG)` while the first trade is
still open. -/
def engReopenRes : Option Trade × TradingEngine :=
  openPosition eng1 "BTCUSDT" .LONG "GOLDEN_CROSS" (some 50000) .ok "trade-2" 3

/-- The spec's bar-aggregation scenario: interval 30, ticks at
(t=0, 100), (t=10, 105), (t=35, 95). -/
def coll1 : KlineCollector := updateKline {} "S" 100 0
def coll2 : KlineCollector := updateKline coll1 "S" 105 10
def coll3 : KlineCollector := updateKline coll2 "S" 95 35

/-- Invariant of reachable collector states: the recorded last-update
instant of a symbol with an in-progress bar is that bar's `open_time`
(the bar's creation time; `last_update` is only written when a bar is
created). -/
def CollectorInv (c : KlineCollector) : Prop :=
  ∀ sym b, alookup c.current_kline sym = some b →
    alookup c.last_update sym = some b.open_time

/-- Specification-side running peaks: the maximum value seen so far at
each position of the curve, starting from a seed. -/
def runningPeaks : ℚ → List ℚ → List ℚ
  | _, [] => []
  | acc, x :: xs => max acc x :: runningPeaks (max acc x) xs

/-- Specification-side maximum drawdown: the maximum over the curve of
`(running peak - equity) / running peak`. -/
def maxDrawdownSpec (curve : List ℚ) : ℚ :=
  match curve with
  | [] => 0
  | e0 :: _ =>
      ((runningPeaks e0 curve).zipWith (fun p x => (p - x) / p) curve).foldl
        max 0

/-! ## Supporting lemmas about `ema` -/

theorem emaFrom_length (m : ℚ) : ∀ (prev : ℚ) (xs : List ℚ),
    (emaFrom m prev xs).length = xs.length := by
  intro prev xs
  induction xs generalizing prev with
  | nil => rfl
  | cons x xs ih => simpa [emaFrom] using ih _

theorem emaFrom_getD_zero (m prev : ℚ) (xs : List ℚ) (h : xs ≠ []) :
    (emaFrom m prev xs).getD 0 0 = xs.getD 0 0 * m + prev * (1 - m) := by
  cases xs with
  | nil => exact absurd rfl h
  | cons x xs => rfl

theorem emaFrom_getD_succ (m : ℚ) : ∀ (xs : List ℚ) (prev : ℚ) (j : ℕ),
    j + 1 < xs.length →
    (emaFrom m prev xs).getD (j + 1) 0 =
      xs.getD (j + 1) 0 * m + (emaFrom m prev xs).getD j 0 * (1 - m) := by
  intro xs
  induction xs with
  | nil => intro prev j h; simp at h
  | cons x xs ih =>
      intro prev j h
      cases j with
      | zero =>
          cases xs with
          | nil => simp at h
          | cons y ys => rfl
      | succ j =>
          have h' : j + 1 < xs.length := by simpa using h
          simpa [emaFrom, List.getD_cons_succ] using ih _ j h'

theorem emaFrom_const (m v : ℚ) : ∀ n : ℕ,
    emaFrom m v (List.replicate n v) = List.replicate n v := by
  intro n
  induction n with
  | zero => rfl
  | succ n ih =>
      have hv : v * m + v * (1 - m) = v := by ring
      simp [List.replicate_succ, emaFrom, hv, ih]

theorem getD_replicate_none {α : Type} (n i : ℕ) :
    (List.replicate n (none : Option α)).getD i none = none := by
  rcases lt_or_le i n with h | h
  · simp [List.getD_eq_getElem?_getD, List.getElem?_replicate, h]
  · have : (List.replicate n (none : Option α))[i]? = none :=
      List.getElem?_eq_none (by simpa using h)
    simp [List.getD_eq_getElem?_getD, this]

theorem getD_map_some (E : List ℚ) (j : ℕ) (hj : j < E.length) :
    (E.map some).getD j none = some (E.getD j 0) := by
  have h1 : (E.map some)[j]? = some (some (E.getD j 0)) := by
    rw [List.getElem?_map, List.getElem?_eq_getElem hj]
    simp [List.getD_eq_getElem?_getD, List.getElem?_eq_getElem hj]
  simp [List.getD_eq_getElem?_getD, h1]

/-- Structure of `ema` when enough data is present. -/
theorem ema_eq_append (data : List ℚ) (p : ℕ) (h : ¬ data.length < p) :
    ema data p =
      List.replicate (p - 1) none ++
        some ((data.take p).sum / p) ::
          (emaFrom (2 / ((p : ℚ) + 1)) ((data.take p).sum / p)
            (data.drop p)).map some := by
  simp [ema, h]

theorem ema_length (data : List ℚ) (p : ℕ) (hp : 0 < p) :
    (ema data p).length = data.length := by
  by_cases h : data.length < p
  · simp [ema, h]
  · rw [ema_eq_append data p h]
    simp [emaFrom_length, List.length_replicate]
    omega

theorem ema_getD_short (data : List ℚ) (p : ℕ) (h : data.length < p) (i : ℕ) :
    (ema data p).getD i none = none := by
  simp only [ema, if_pos h]
  exact getD_replicate_none _ _

theorem ema_getD_warmup (data : List ℚ) (p : ℕ) (i : ℕ) (h : i + 1 < p) :
    (ema data p).getD i none = none := by
  by_cases hs : data.length < p
  · exact ema_getD_short data p hs i
  · rw [ema_eq_append data p hs]
    rw [List.getD_append _ _ _ _ (by simp [List.length_replicate]; omega)]
    exact getD_replicate_none _ _

theorem ema_getD_first (data : List ℚ) (p : ℕ) (hp : 0 < p)
    (h : p ≤ data.length) :
    (ema data p).getD (p - 1) none = some ((data.take p).sum / p) := by
  rw [ema_eq_append data p (by omega)]
  rw [List.getD_append_right _ _ _ _ (by simp [List.length_replicate])]
  simp [List.length_replicate]

theorem ema_getD_rec (data : List ℚ) (p : ℕ) (i : ℕ) (hp : 0 < p)
    (hpi : p ≤ i) (hi : i < data.length) :
    ∃ prev, (ema data p).getD (i - 1) none = some prev ∧
      (ema data p).getD i none =
        some (data.getD i 0 * (2 / ((p : ℚ) + 1)) +
          prev * (1 - 2 / ((p : ℚ) + 1))) := by
  have hnlt : ¬ data.length < p := by omega
  set m : ℚ := 2 / ((p : ℚ) + 1) with hm
  set sma : ℚ := (data.take p).sum / p with hsma
  set E : List ℚ := emaFrom m sma (data.drop p) with hE
  have hElen : E.length = data.length - p := by
    rw [hE, emaFrom_length, List.length_drop]
  have hstruct : ema data p = List.replicate (p - 1) none ++
      some sma :: E.map some := ema_eq_append data p hnlt
  have hidx : i - (p - 1) = (i - p) + 1 := by omega
  have hcur : (ema data p).getD i none = (E.map some).getD (i - p) none := by
    rw [hstruct, List.getD_append_right _ _ _ _ (by simp [List.length_replicate]; omega)]
    simp only [List.length_replicate, hidx, List.getD_cons_succ]
  have hjlt : i - p < E.length := by omega
  have hcur' : (ema data p).getD i none = some (E.getD (i - p) 0) := by
    rw [hcur, getD_map_some _ _ hjlt]
  have hdropne : data.drop p ≠ [] := by
    intro hc
    have := List.length_drop p data
    rw [hc] at this
    simp at this
    omega
  rcases Nat.eq_or_lt_of_le hpi with heq | hlt
  · -- i = p : the previous value is the seeding simple average
    refine ⟨sma, ?_, ?_⟩
    · rw [hstruct,
        List.getD_append_right _ _ _ _ (by simp [List.length_replicate]; omega)]
      have : i - 1 - (p - 1) = 0 := by omega
      simp [List.length_replicate, this]
    · rw [hcur']
      have h0 : E.getD (i - p) 0 = (data.drop p).getD 0 0 * m + sma * (1 - m) := by
        have : i - p = 0 := by omega
        rw [this, hE, emaFrom_getD_zero _ _ _ hdropne]
      have hdd : (data.drop p).getD 0 0 = data.getD i 0 := by
        have hpi0 : p + 0 = i := by omega
        rw [List.getD_eq_getElem?_getD, List.getElem?_drop, hpi0,
          ← List.getD_eq_getElem?_getD]
      rw [h0, hdd]
  · -- i > p : the previous value is the preceding EMA value
    refine ⟨E.getD (i - p - 1) 0, ?_, ?_⟩
    · have hprev : (ema data p).getD (i - 1) none =
          (E.map some).getD (i - 1 - p) none := by
        rw [hstruct,
          List.getD_append_right _ _ _ _ (by simp [List.length_replicate]; omega)]
        have : i - 1 - (p - 1) = (i - 1 - p) + 1 := by omega
        simp only [List.length_replicate, this, List.getD_cons_succ]
      rw [hprev]
      have : i - 1 - p = i - p - 1 := by omega
      rw [this, getD_map_some _ _ (by omega)]
    · rw [hcur']
      have hjj : i - p = (i - p - 1) + 1 := by omega
      have hrec := emaFrom_getD_succ m (data.drop p) sma (i - p - 1)
        (by rw [List.length_drop]; omega)
      rw [← hjj] at hrec
      rw [hE] at hcur' ⊢
      rw [hrec]
      have hdd : (data.drop p).getD (i - p) 0 = data.getD i 0 := by
        have hpi0 : p + (i - p) = i := by omega
        rw [List.getD_eq_getElem?_getD, List.getElem?_drop, hpi0,
          ← List.getD_eq_getElem?_getD]
      rw [hdd]

/-! ## Claim C6 -/

/-- C6: for every numeric sequence and period `p > 0`, `_ema` yields an
absent value at every position before `p` elements have been seen (and at
every position of a sequence shorter than `p`); at exactly `p` elements
the first defined value is the simple average of those `p` elements; and
every subsequent value is `current*k + previous*(1-k)` with
`k = 2/(p+1)`. -/
theorem c6_ema_warmup_and_recurrence (data : List ℚ) (p : ℕ) (hp : 0 < p) :
    (ema data p).length = data.length ∧
    (∀ i, i + 1 < p ∨ data.length < p → (ema data p).getD i none = none) ∧
    (p ≤ data.length →
      (ema data p).getD (p - 1) none = some ((data.take p).sum / p)) ∧
    (∀ i, p ≤ i → i < data.length →
      ∃ prev, (ema data p).getD (i - 1) none = some prev ∧
        (ema data p).getD i none =
          some (data.getD i 0 * (2 / ((p : ℚ) + 1)) +
            prev * (1 - 2 / ((p : ℚ) + 1)))) := by
  refine ⟨ema_length data p hp, ?_, ?_, ?_⟩
  · intro i hi
    rcases hi with hi | hi
    · exact ema_getD_warmup data p i hi
    · exact ema_getD_short data p hi i
  · intro h
    exact ema_getD_first data p hp h
  · intro i hpi hi
    exact ema_getD_rec data p i hp hpi hi

/-- Witness for C6 at `data = [1, 2, 3, 4]`, `p = 2`. -/
theorem c6_witness :
    (0 < 2 ∧ (2 : ℕ) ≤ ([1, 2, 3, 4] : List ℚ).length) ∧
      (ema [1, 2, 3, 4] 2).getD 1 none = some (3 / 2) := by
  refine ⟨⟨by decide, by decide⟩, ?_⟩
  have h := (c6_ema_warmup_and_recurrence [1, 2, 3, 4] 2 (by decide)).2.2.1
    (by decide)
  have e : (((1 : ℚ) + 2) / 2 : ℚ) = 3 / 2 := by norm_num
  simpa [e] using h

/-! ## Claim C9 -/

/-- C9: on a constant sequence of `n ≥ p` copies of `v`, every defined
value of the computed EMA equals `v`. -/
theorem c9_ema_constant (n : ℕ) (v : ℚ) (p : ℕ) (hp : 0 < p) (hpn : p ≤ n) :
    ∀ x ∈ ema (List.replicate n v) p, ∀ q, x = some q → q = v := by
  have hlen : (List.replicate n v).length = n := List.length_replicate n v
  have hnlt : ¬ (List.replicate n v).length < p := by omega
  have hpQ : ((p : ℚ)) ≠ 0 := Nat.cast_ne_zero.mpr hp.ne'

  have hsma : ((List.replicate n v).take p).sum / (p : ℚ) = v := by
    rw [List.take_replicate, min_eq_left hpn, List.sum_replicate, nsmul_eq_mul]
    field_simp
  have hdrop : (List.replicate n v).drop p = List.replicate (n - p) v :=
    List.drop_replicate v p n
  rw [ema_eq_append _ _ hnlt, hsma, hdrop, emaFrom_const]
  intro x hx q hxq
  rcases List.mem_append.mp hx with hx | hx
  · rw [List.eq_of_mem_replicate hx] at hxq
    exact absurd hxq (by simp)
  · rcases List.mem_cons.mp hx with hx | hx
    · rw [hx] at hxq
      exact (Option.some.inj hxq).symm
    · rcases List.mem_map.mp hx with ⟨w, hw, hws⟩
      rw [List.eq_of_mem_replicate hw] at hws
      rw [← hws] at hxq
      exact (Option.some.inj hxq).symm

/-- Witness for C9 at `n = 5`, `v = 7`, `p = 3`. -/
theorem c9_witness :
    ((0 < 3 ∧ 3 ≤ 5) ∧ some (7 : ℚ) ∈ ema (List.replicate 5 (7 : ℚ)) 3) ∧
      ∀ q, some (7 : ℚ) = some q → q = (7 : ℚ) := by
  have hmem : some (7 : ℚ) ∈ ema (List.replicate 5 (7 : ℚ)) 3 := by
    norm_num [ema, emaFrom, List.replicate]
  exact ⟨⟨⟨by decide, by decide⟩, hmem⟩,
    c9_ema_constant 5 7 3 (by decide) (by decide) (some 7) hmem⟩

/-! ## Supporting lemmas about `addKline` -/

/-- Early return of `add_kline` when the close history is still shorter
than `slow_period + signal_period - 1`. -/
theorem addKline_short1 (s : MACDStrategy) (k : Kline)
    (h : ((s.klines_history ++ [k]).map Kline.close).length <
      s.slow_period + s.signal_period - 1) :
    addKline s k =
      (⟨k.close, 0, 0, 0, "NONE"⟩,
       { s with klines_history := s.klines_history ++ [k] }) := by
  simp only [addKline]
  rw [if_pos h]

/-- Behaviour of `add_kline` once the full MACD chain is defined: it
emits `crossSignal` of the previous defined histogram and the current
one, records the current histogram as the new predecessor, and appends
the emitted record to `macd_history`. -/
theorem addKline_defined (s : MACDStrategy) (k : Kline)
    (h1 : ¬ ((s.klines_history ++ [k]).map Kline.close).length <
      s.slow_period + s.signal_period - 1)
    (h2 : ¬ (macdValues ((s.klines_history ++ [k]).map Kline.close)
        s.fast_period s.slow_period).length < s.signal_period) :
    (addKline s k).1.signal_type =
      crossSignal s.prev_histogram
        (currentHistogram ((s.klines_history ++ [k]).map Kline.close)
          s.fast_period s.slow_period s.signal_period) ∧
    (addKline s k).2 =
      { s with
        klines_history := s.klines_history ++ [k],
        prev_histogram := some
          (currentHistogram ((s.klines_history ++ [k]).map Kline.close)
            s.fast_period s.slow_period s.signal_period),
        macd_history := s.macd_history ++ [(addKline s k).1] } := by
  constructor
  · simp only [addKline]
    rw [if_neg h1, if_neg h2]
  · simp only [addKline]
    rw [if_neg h1, if_neg h2]

theorem c5_step1 : (addKline c5s0 (kb 10)).2 = c5s1 := by
  rw [addKline_short1 _ _ (by decide)]; rfl

theorem c5_step2 : (addKline c5s1 (kb 9)).2 = c5s2 := by
  rw [addKline_short1 _ _ (by decide)]; rfl

theorem c5_step3 : (addKline c5s2 (kb 7)).2 = c5s3 := by
  rw [addKline_short1 _ _ (by decide)]; rfl

theorem c5_ch4 :
    currentHistogram ((c5s3.klines_history ++ [kb 4]).map Kline.close) 1 3 2
      = -1/3 := by
  norm_num [c5s3, kb, currentHistogram, macdValues, macdLine, ema, emaFrom,
    List.replicate, List.zip, List.zipWith, List.filterMap,
    List.getLast?_cons_cons, List.getLast?_singleton, Option.getD]

theorem c5_step4 : (addKline c5s3 (kb 4)).2 = c5s4 := by
  have h := (addKline_defined c5s3 (kb 4) (by decide) (by decide)).2
  rw [show c5s3.fast_period = 1 from rfl, show c5s3.slow_period = 3 from rfl,
    show c5s3.signal_period = 2 from rfl, c5_ch4] at h
  rw [h]; rfl

theorem c5_ch5 :
    currentHistogram ((c5s4.klines_history ++ [kb 2]).map Kline.close) 1 3 2
      = -1/18 := by
  norm_num [c5s4, kb, currentHistogram, macdValues, macdLine, ema, emaFrom,
    List.replicate, List.zip, List.zipWith, List.filterMap,
    List.getLast?_cons_cons, List.getLast?_singleton, Option.getD]

theorem c5_step5 : (addKline c5s4 (kb 2)).2 = c5s5 := by
  have h := (addKline_defined c5s4 (kb 2) (by decide) (by decide)).2
  rw [show c5s4.fast_period = 1 from rfl, show c5s4.slow_period = 3 from rfl,
    show c5s4.signal_period = 2 from rfl, c5_ch5] at h
  rw [h]; rfl

theorem c5_ch6 :
    currentHistogram ((c5s5.klines_history ++ [kb 12]).map Kline.close) 1 3 2
      = 217/108 := by
  norm_num [c5s5, kb, currentHistogram, macdValues, macdLine, ema, emaFrom,
    List.replicate, List.zip, List.zipWith, List.filterMap,
    List.getLast?_cons_cons, List.getLast?_singleton, Option.getD]

theorem c5_step6 : (addKline c5s5 (kb 12)).2 = c5s6 := by
  have h := (addKline_defined c5s5 (kb 12) (by decide) (by decide)).2
  rw [show c5s5.fast_period = 1 from rfl, show c5s5.slow_period = 3 from rfl,
    show c5s5.signal_period = 2 from rfl, c5_ch6] at h
  rw [h]; rfl

theorem c5_ch7 :
    currentHistogram ((c5s6.klines_history ++ [kb 20]).map Kline.close) 1 3 2
      = 875/648 := by
  norm_num [c5s6, kb, currentHistogram, macdValues, macdLine, ema, emaFrom,
    List.replicate, List.zip, List.zipWith, List.filterMap,
    List.getLast?_cons_cons, List.getLast?_singleton, Option.getD]

theorem c5_step7 : (addKline c5s6 (kb 20)).2 = c5s7 := by
  have h := (addKline_defined c5s6 (kb 20) (by decide) (by decide)).2
  rw [show c5s6.fast_period = 1 from rfl, show c5s6.slow_period = 3 from rfl,
    show c5s6.signal_period = 2 from rfl, c5_ch7] at h
  rw [h]; rfl

theorem c5_ch8 :
    currentHistogram ((c5s7.klines_history ++ [kb 5]).map Kline.close) 1 3 2
      = -11831/3888 := by
  norm_num [c5s7, kb, currentHistogram, macdValues, macdLine, ema, emaFrom,
    List.replicate, List.zip, List.zipWith, List.filterMap,
    List.getLast?_cons_cons, List.getLast?_singleton, Option.getD]

theorem c5_step8 : (addKline c5s7 (kb 5)).2 = c5s8 := by
  have h := (addKline_defined c5s7 (kb 5) (by decide) (by decide)).2
  rw [show c5s7.fast_period = 1 from rfl, show c5s7.slow_period = 3 from rfl,
    show c5s7.signal_period = 2 from rfl, c5_ch8] at h
  rw [h]; rfl

theorem c5_feed : feedCloses c5s0 c5closes = c5s8 := by
  simp only [feedCloses, c5closes, List.foldl]
  rw [c5_step1, c5_step2, c5_step3, c5_step4, c5_step5, c5_step6, c5_step7,
    c5_step8]

/-! ## Claim C5 -/

/-- C5: once the histogram is defined, the emitted signal kind is
determined solely by the previous defined histogram and the current one;
prev < 0 and curr ≥ 0 gives GOLDEN_CROSS, prev ≥ 0 and curr < 0 gives
DEAD_CROSS, otherwise NONE; the very first defined histogram yields NONE;
the synthetic close series `c5closes` whose defined histograms have signs
neg, neg, pos, pos, neg yields the kinds
NONE, NONE, GOLDEN_CROSS, NONE, DEAD_CROSS. -/
theorem c5_crossover_determinism :
    (∀ (s1 s2 : MACDStrategy) (k1 k2 : Kline),
      ¬ ((s1.klines_history ++ [k1]).map Kline.close).length <
        s1.slow_period + s1.signal_period - 1 →
      ¬ (macdValues ((s1.klines_history ++ [k1]).map Kline.close)
          s1.fast_period s1.slow_period).length < s1.signal_period →
      ¬ ((s2.klines_history ++ [k2]).map Kline.close).length <
        s2.slow_period + s2.signal_period - 1 →
      ¬ (macdValues ((s2.klines_history ++ [k2]).map Kline.close)
          s2.fast_period s2.slow_period).length < s2.signal_period →
      s1.prev_histogram = s2.prev_histogram →
      currentHistogram ((s1.klines_history ++ [k1]).map Kline.close)
          s1.fast_period s1.slow_period s1.signal_period =
        currentHistogram ((s2.klines_history ++ [k2]).map Kline.close)
          s2.fast_period s2.slow_period s2.signal_period →
      (addKline s1 k1).1.signal_type = (addKline s2 k2).1.signal_type) ∧
    (∀ (s : MACDStrategy) (k : Kline),
      ¬ ((s.klines_history ++ [k]).map Kline.close).length <
        s.slow_period + s.signal_period - 1 →
      ¬ (macdValues ((s.klines_history ++ [k]).map Kline.close)
          s.fast_period s.slow_period).length < s.signal_period →
      (addKline s k).2.prev_histogram = some
        (currentHistogram ((s.klines_history ++ [k]).map Kline.close)
          s.fast_period s.slow_period s.signal_period) ∧
      (s.prev_histogram = none → (addKline s k).1.signal_type = "NONE") ∧
      (∀ pv, s.prev_histogram = some pv →
        (addKline s k).1.signal_type =
          (if pv < 0 ∧ 0 ≤ currentHistogram
              ((s.klines_history ++ [k]).map Kline.close)
              s.fast_period s.slow_period s.signal_period
           then "GOLDEN_CROSS"
           else if 0 ≤ pv ∧ currentHistogram
              ((s.klines_history ++ [k]).map Kline.close)
              s.fast_period s.slow_period s.signal_period < 0
           then "DEAD_CROSS"
           else "NONE"))) ∧
    ((feedCloses c5s0 c5closes).macd_history.map MACDSignal.signal_type =
        ["NONE", "NONE", "GOLDEN_CROSS", "NONE", "DEAD_CROSS"] ∧
      currentHistogram ((c5s3.klines_history ++ [kb 4]).map Kline.close)
          1 3 2 < 0 ∧
      currentHistogram ((c5s4.klines_history ++ [kb 2]).map Kline.close)
          1 3 2 < 0 ∧
      0 ≤ currentHistogram ((c5s5.klines_history ++ [kb 12]).map Kline.close)
          1 3 2 ∧
      0 ≤ currentHistogram ((c5s6.klines_history ++ [kb 20]).map Kline.close)
          1 3 2 ∧
      currentHistogram ((c5s7.klines_history ++ [kb 5]).map Kline.close)
          1 3 2 < 0) := by
  refine ⟨?_, ?_, ?_⟩
  · intro s1 s2 k1 k2 h11 h12 h21 h22 hprev hch
    rw [(addKline_defined s1 k1 h11 h12).1, (addKline_defined s2 k2 h21 h22).1,
      hprev, hch]
  · intro s k h1 h2
    have hd := addKline_defined s k h1 h2
    refine ⟨by rw [hd.2], ?_, ?_⟩
    · intro hn
      rw [hd.1, hn, crossSignal]
    · intro pv hpv
      rw [hd.1, hpv]
      simp only [crossSignal, ge_iff_le]
  · have h4 := (addKline_defined c5s3 (kb 4) (by decide) (by decide)).1
    rw [show c5s3.fast_period = 1 from rfl, show c5s3.slow_period = 3 from rfl,
      show c5s3.signal_period = 2 from rfl, c5_ch4] at h4
    have h5 := (addKline_defined c5s4 (kb 2) (by decide) (by decide)).1
    rw [show c5s4.fast_period = 1 from rfl, show c5s4.slow_period = 3 from rfl,
      show c5s4.signal_period = 2 from rfl, c5_ch5] at h5
    have h6 := (addKline_defined c5s5 (kb 12) (by decide) (by decide)).1
    rw [show c5s5.fast_period = 1 from rfl, show c5s5.slow_period = 3 from rfl,
      show c5s5.signal_period = 2 from rfl, c5_ch6] at h6
    have h7 := (addKline_defined c5s6 (kb 20) (by decide) (by decide)).1
    rw [show c5s6.fast_period = 1 from rfl, show c5s6.slow_period = 3 from rfl,
      show c5s6.signal_period = 2 from rfl, c5_ch7] at h7
    have h8 := (addKline_defined c5s7 (kb 5) (by decide) (by decide)).1
    rw [show c5s7.fast_period = 1 from rfl, show c5s7.slow_period = 3 from rfl,
      show c5s7.signal_period = 2 from rfl, c5_ch8] at h8
    refine ⟨?_, ?_, ?_, ?_, ?_, ?_⟩
    · rw [c5_feed]
      show [c5r4, c5r5, c5r6, c5r7, c5r8].map MACDSignal.signal_type = _
      simp only [List.map_cons, List.map_nil, c5r4, c5r5, c5r6, c5r7, c5r8,
        h4, h5, h6, h7, h8]
      norm_num [c5s3, c5s4, c5s5, c5s6, c5s7, crossSignal]
    · rw [c5_ch4]; norm_num
    · rw [c5_ch5]; norm_num
    · rw [c5_ch6]; norm_num
    · rw [c5_ch7]; norm_num
    · rw [c5_ch8]; norm_num

/-- Witness for C5: the first defined histogram of the synthetic run
emits NONE. -/
theorem c5_witness : (addKline c5s3 (kb 4)).1.signal_type = "NONE" :=
  ((c5_crossover_determinism.2.1 c5s3 (kb 4) (by decide) (by decide)).2.1) rfl

/-! ## Supporting lemmas about the engine and association lists -/

theorem alookup_astore {α : Type} (m : List (String × α)) (k k' : String)
    (v : α) :
    alookup (astore m k v) k' = if k = k' then some v else alookup m k' := by
  induction m with
  | nil =>
      by_cases h : k = k' <;> simp [astore, alookup, h]
  | cons hd tl ih =>
      rcases hd with ⟨a, w⟩
      simp only [astore]
      by_cases h1 : a = k
      · subst h1
        rw [if_pos rfl]
        by_cases h2 : a = k' <;> simp [alookup, h2]
      · rw [if_neg h1]
        by_cases h2 : a = k'
        · have hkk : ¬ k = k' := fun hc => h1 (by rw [hc, h2])
          simp [alookup, h2, hkk]
        · simp [alookup, h2, ih]

/-- Components of engine state the spec calls the portfolio: balances,
trade logs, active and closed positions, equity curve and statistics
(everything except the `last_error` diagnostic). -/
def portfolioEq (a b : TradingEngine) : Prop :=
  a.available_balance = b.available_balance ∧
  a.total_capital = b.total_capital ∧
  a.trades = b.trades ∧
  a.active_positions = b.active_positions ∧
  a.closed_trades = b.closed_trades ∧
  a.equity_curve = b.equity_curve ∧
  a.stats = b.stats

/-! ## Claim C3 -/

/-- C3: every failure path of `open_position` (price unavailable,
insufficient funds, order rejected or unanswered) and of `close_position`
(no position, price unavailable, order rejected or unanswered) returns
`None` and leaves every portfolio component of the engine unchanged. -/
theorem c3_failures_are_noops :
    (∀ (e : TradingEngine) (symbol : String) (side : PositionSide)
      (sig : String) (price : Option ℚ) (order : OrderResp) (tid : String)
      (now : ℤ),
      (openPosition e symbol side sig price order tid now).1 = none →
      portfolioEq (openPosition e symbol side sig price order tid now).2 e) ∧
    (∀ (e : TradingEngine) (symbol : String) (sig : String)
      (price : Option ℚ) (order : OrderResp) (now : ℤ),
      (closePosition e symbol sig price order now).1 = none →
      portfolioEq (closePosition e symbol sig price order now).2 e) := by
  constructor
  · intro e symbol side sig price order tid now h
    cases price with
    | none => simp [openPosition, portfolioEq]
    | some cp =>
        by_cases hz : cp = 0
        · simp [openPosition, hz, portfolioEq]
        · by_cases hb : e.available_balance * 2⁻¹ < 10
          · simp [openPosition, hz, hb, portfolioEq]
          · cases order with
            | noResp => simp [openPosition, hz, hb, portfolioEq]
            | failed err => simp [openPosition, hz, hb, portfolioEq]
            | ok => simp [openPosition, hz, hb] at h
  · intro e symbol sig price order now h
    cases hl : alookup e.active_positions symbol with
    | none => simp [closePosition, hl, portfolioEq]
    | some t =>
        cases price with
        | none => simp [closePosition, hl, portfolioEq]
        | some cp =>
            by_cases hz : cp = 0
            · simp [closePosition, hl, hz, portfolioEq]
            · cases order with
              | noResp => simp [closePosition, hl, hz, portfolioEq]
              | failed err => simp [closePosition, hl, hz, portfolioEq]
              | ok => simp [closePosition, hl, hz] at h

/-- Witness for C3: opening with an unavailable price on the fresh
engine fails and is a portfolio no-op. -/
theorem c3_witness :
    (openPosition eng0 "BTCUSDT" PositionSide.LONG "" none OrderResp.ok
      "t" 0).1 = none ∧
    portfolioEq (openPosition eng0 "BTCUSDT" PositionSide.LONG "" none
      OrderResp.ok "t" 0).2 eng0 :=
  ⟨rfl, c3_failures_are_noops.1 eng0 "BTCUSDT" PositionSide.LONG "" none
    OrderResp.ok "t" 0 rfl⟩

/-! ## Claim C4 -/

/-- C4: with initial capital 3000 and allocation fraction 0.5, opening
LONG at 50000 allocates 1500, truncates the quantity to 0.030 and leaves
1500 available; closing at 51000 yields pnl 30, credits the balance to
3030, sets total capital to 3030, moves the trade from the active set to
the closed history, and appends the equity point (3030, 3030). -/
theorem c4_position_lifecycle :
    eng1.available_balance = 1500 ∧
    engOpenRes.1.map Trade.entry_quantity = some (3 / 100) ∧
    alookup eng1.active_positions "BTCUSDT" = engOpenRes.1 ∧
    engCloseRes.1.map Trade.profit_loss = some 30 ∧
    engCloseRes.2.available_balance = 3030 ∧
    engCloseRes.2.total_capital = 3030 ∧
    engCloseRes.2.active_positions = [] ∧
    engCloseRes.2.closed_trades.map Trade.trade_id = ["trade-1"] ∧
    engCloseRes.2.closed_trades.map Trade.status = [OrderStatus.CLOSED] ∧
    engCloseRes.2.equity_curve.getLast? = some ⟨2, 3030, 3030⟩ := by
  refine ⟨?_, ?_, ?_, ?_⟩
  · norm_num [eng1, engOpenRes, openPosition, eng0, TradingEngine.init,
      formatQuantity]
  · norm_num [engOpenRes, openPosition, eng0, TradingEngine.init,
      formatQuantity]
  · norm_num [eng1, engOpenRes, openPosition, eng0, TradingEngine.init,
      formatQuantity, alookup, astore]
  · norm_num [engCloseRes, closePosition, eng1, engOpenRes, openPosition,
      eng0, TradingEngine.init, formatQuantity, alookup, astore, aerase,
      updateStats, computeMaxDrawdown, List.getLast?]

/-! ## Claim C1 -/

/-- Counterexample to C1: with the `trade-1` position still OPEN for
BTCUSDT (engine `eng1`), a second `open_position` does **not** fail and
does **not** leave the portfolio unchanged: it succeeds, debits the
available balance from 1500 to 750, and overwrites the active-positions
entry with the new `trade-2`.  `TradingEngine.open_position` performs no
duplicate-position check at all. -/
theorem c1_counterexample :
    engReopenRes.1.isSome = true ∧
    eng1.available_balance = 1500 ∧
    engReopenRes.2.available_balance = 750 ∧
    (alookup eng1.active_positions "BTCUSDT").map Trade.trade_id =
      some "trade-1" ∧
    (alookup engReopenRes.2.active_positions "BTCUSDT").map Trade.trade_id =
      some "trade-2" := by
  refine ⟨?_, ?_, ?_, ?_, ?_⟩ <;>
    norm_num [engReopenRes, eng1, engOpenRes, openPosition, eng0,
      TradingEngine.init, formatQuantity, alookup, astore]

/-- C1 (amended): `open_position` performs no duplicate-position check;
when an OPEN trade already exists for the symbol and the price is
available, the allocation is at least the minimum notional and the order
is accepted, the second open succeeds, debits `available_balance` by the
allocation, overwrites the symbol's active-positions entry with the new
trade, and counts a fresh trade — duplicate prevention is left entirely
to callers. -/
theorem c1_no_duplicate_check (e : TradingEngine) (symbol : String)
    (side : PositionSide) (sig tid : String) (p : ℚ) (now : ℤ) (t : Trade)
    (hactive : alookup e.active_positions symbol = some t)
    (hp0 : p ≠ 0)
    (hfunds : ¬ e.available_balance * 2⁻¹ < 10) :
    (openPosition e symbol side sig (some p) OrderResp.ok tid now).1.isSome
      = true ∧
    (openPosition e symbol side sig (some p) OrderResp.ok tid now).2.available_balance
      = e.available_balance - e.available_balance * (1 / 2) ∧
    alookup (openPosition e symbol side sig (some p) OrderResp.ok tid
        now).2.active_positions symbol
      = (openPosition e symbol side sig (some p) OrderResp.ok tid now).1 ∧
    (openPosition e symbol side sig (some p) OrderResp.ok tid
        now).2.stats.total_trades = e.stats.total_trades + 1 := by
  refine ⟨?_, ?_, ?_, ?_⟩ <;>
    simp [openPosition, hp0, hfunds, alookup_astore]

/-- Witness for C1's amended statement at engine `eng1` (BTCUSDT open). -/
theorem c1_witness :
    (openPosition eng1 "BTCUSDT" PositionSide.LONG "GOLDEN_CROSS"
      (some 50000) OrderResp.ok "trade-2" 3).1.isSome = true ∧
    (openPosition eng1 "BTCUSDT" PositionSide.LONG "GOLDEN_CROSS"
      (some 50000) OrderResp.ok "trade-2" 3).2.available_balance
      = eng1.available_balance - eng1.available_balance * (1 / 2) := by
  have ha : alookup eng1.active_positions "BTCUSDT" =
      some ⟨"trade-1", "BTCUSDT", PositionSide.LONG, 50000, 3 / 100, 1,
        none, none, none, 0, 0, OrderStatus.OPEN, "GOLDEN_CROSS"⟩ := by
    norm_num [eng1, engOpenRes, openPosition, eng0, TradingEngine.init,
      formatQuantity, alookup, astore]
  have hf : ¬ eng1.available_balance * 2⁻¹ < 10 := by
    norm_num [eng1, engOpenRes, openPosition, eng0, TradingEngine.init,
      formatQuantity]
  have h := c1_no_duplicate_check eng1 "BTCUSDT" PositionSide.LONG
    "GOLDEN_CROSS" "trade-2" 50000 3 _ ha (by norm_num) hf
  exact ⟨h.1, h.2.1⟩

/-! ## Supporting lemmas for the drawdown rescan -/

theorem ite_gt_eq_max (a b : ℚ) : (if b > a then b else a) = max a b := by
  rcases le_or_lt b a with h | h
  · rw [if_neg (not_lt.mpr h), max_eq_left h]
  · rw [if_pos h, max_eq_right h.le]

theorem mdd_fold (xs : List ℚ) : ∀ peak m : ℚ,
    (xs.foldl
      (fun (acc : ℚ × ℚ) eq =>
        let p := if eq > acc.1 then eq else acc.1
        let dd := (p - eq) / p
        (p, if dd > acc.2 then dd else acc.2))
      (peak, m)).2 =
      ((runningPeaks peak xs).zipWith (fun p x => (p - x) / p) xs).foldl
        max m := by
  induction xs with
  | nil => intro peak m; rfl
  | cons x xs ih =>
      intro peak m
      have hstep :
          (let p := if x > (peak, m).1 then x else (peak, m).1
           let dd := (p - x) / p
           (p, if dd > (peak, m).2 then dd else (peak, m).2))
            = ((max peak x : ℚ),
                max m ((max peak x - x) / (max peak x))) := by
        show ((if x > peak then x else peak),
            if (((if x > peak then x else peak) - x) /
                (if x > peak then x else peak)) > m
              then (((if x > peak then x else peak) - x) /
                (if x > peak then x else peak))
              else m) = _
        rw [ite_gt_eq_max, ite_gt_eq_max]
      rw [List.foldl_cons, hstep, ih]
      simp only [runningPeaks, List.zipWith_cons_cons, List.foldl_cons]

/-! ## Claim C8 -/

/-- C8: `_update_stats` recomputes the maximum drawdown from the whole
equity curve as the maximum over the curve of
`(running peak - equity) / running peak`, where the running peak at each
position is the maximum equity seen so far; for the curve
[3000, 3030, 2900] the result is 130/3030 = 13/303 ≈ 4.29 %. -/
theorem c8_max_drawdown_rescan :
    (∀ (e : TradingEngine) (pt : EquityPoint) (rest : List EquityPoint),
      e.equity_curve = pt :: rest →
      (updateStats e).stats.max_drawdown =
        computeMaxDrawdown pt.equity (e.equity_curve.map EquityPoint.equity)) ∧
    (∀ (e0 : ℚ) (rest : List ℚ),
      computeMaxDrawdown e0 (e0 :: rest) = maxDrawdownSpec (e0 :: rest)) ∧
    (∀ (a : ℚ) (xs : List ℚ) (i : ℕ), i < xs.length →
      (runningPeaks a xs).getD i 0 = (xs.take (i + 1)).foldl max a) ∧
    computeMaxDrawdown 3000 [3000, 3030, 2900] = 13 / 303 ∧
    (429 / 10000 : ℚ) < 13 / 303 ∧ (13 / 303 : ℚ) < 43 / 1000 := by
  refine ⟨?_, ?_, ?_, ?_, by norm_num, by norm_num⟩

  · intro e pt rest hcurve
    simp only [updateStats, hcurve]
  · intro e0 rest
    show (List.foldl _ (e0, 0) (e0 :: rest)).2 = _
    rw [mdd_fold (e0 :: rest) e0 0, maxDrawdownSpec]
  · intro a xs
    induction xs generalizing a with
    | nil => intro i hi; simp at hi
    | cons x xs ih =>
        intro i hi
        cases i with
        | zero => simp [runningPeaks, List.take]
        | succ i =>
            have hi' : i < xs.length := by simpa using hi
            simp only [runningPeaks, List.getD_cons_succ, List.take,
              List.foldl_cons]
            exact ih (max a x) i hi'
  · norm_num [computeMaxDrawdown, List.foldl]

/-- Witness for C8's generic part at the engine produced by the concrete
lifecycle close (its curve is [(0, 3000), (2, 3030)]). -/
theorem c8_witness :
    (updateStats engCloseRes.2).stats.max_drawdown =
      computeMaxDrawdown (3000 : ℚ) [3000, 3030] := by
  have hc : engCloseRes.2.equity_curve =
      (⟨0, 3000, 3000⟩ : EquityPoint) :: [⟨2, 3030, 3030⟩] := by
    norm_num [engCloseRes, closePosition, eng1, engOpenRes, openPosition,
      eng0, TradingEngine.init, formatQuantity, alookup, astore, aerase,
      updateStats, computeMaxDrawdown]
  have h := c8_max_drawdown_rescan.1 engCloseRes.2 ⟨0, 3000, 3000⟩
    [⟨2, 3030, 3030⟩] hc
  rw [hc] at h
  simpa using h

/-! ## Supporting lemmas about the collector -/

theorem getLast?_drop_of_lt {α : Type} :
    ∀ (l : List α) (n : ℕ), n < l.length →
      (l.drop n).getLast? = l.getLast? := by
  intro l
  induction l with
  | nil => intro n h; simp at h
  | cons x xs ih =>
      intro n h
      cases n with
      | zero => rfl
      | succ n =>
          have h' : n < xs.length := by simpa using h
          rw [List.drop_succ_cons, ih n h']
          cases xs with
          | nil => simp at h'
          | cons y ys => rw [List.getLast?_cons_cons]

/-- The finalize branch of `_update_kline`: when a bar exists and at
least `kline_interval` has elapsed since the recorded last update, the
in-progress bar is stamped with `close_time := last_update`, appended to
the (truncated) history, and a fresh bar seeded from the snapshot close
is opened. -/
theorem updateKline_finalize (c : KlineCollector) (sym : String) (p : ℚ)
    (now : ℤ) (b : KBar) (t : ℤ)
    (hb : alookup c.current_kline sym = some b)
    (ht : alookup c.last_update sym = some t)
    (hge : now - t ≥ c.kline_interval) :
    (∃ bars, alookup (updateKline c sym p now).klines sym = some bars ∧
      bars.getLast? = some { b with close_time := t }) ∧
    alookup (updateKline c sym p now).current_kline sym =
      some ⟨now, p, p, p, p, 0, now⟩ ∧
    alookup (updateKline c sym p now).last_update sym = some now := by
  refine ⟨⟨if ((alookup c.klines sym).getD [] ++
        [{ b with close_time := t }]).length > 1000
      then ((alookup c.klines sym).getD [] ++
        [{ b with close_time := t }]).drop
          (((alookup c.klines sym).getD [] ++
            [{ b with close_time := t }]).length - 1000)
      else (alookup c.klines sym).getD [] ++ [{ b with close_time := t }],
      ?_, ?_⟩, ?_, ?_⟩
  · simp only [updateKline, hb, ht, Option.getD_some]
    rw [if_pos hge]
    simp [alookup_astore]
  · by_cases hlen : ((alookup c.klines sym).getD [] ++
        [{ b with close_time := t }]).length > 1000
    · rw [if_pos hlen, getLast?_drop_of_lt _ _ (by omega),
        List.getLast?_concat]
    · rw [if_neg hlen, List.getLast?_concat]
  · simp only [updateKline, hb, ht, Option.getD_some]
    rw [if_pos hge]
    simp [alookup_astore]
  · simp only [updateKline, hb, ht, Option.getD_some]
    rw [if_pos hge]
    simp [alookup_astore]

/-! ## Claim C2 -/

/-- Counterexample to C2: ticks (t=0, 100), (t=10, 105), (t=35, 95) with
interval 30 make the aggregator finalize and append a bar whose
`close_time` equals its `open_time` (both are the bar's creation instant
0), so `open_time < close_time` fails for a finalized bar. -/
theorem c2_counterexample :
    (alookup coll3.klines "S").getD [] =
      [{ open_time := 0, open_price := 100, high := 105, low := 100,
         close := 105, volume := 0, close_time := 0 }] ∧
    ¬ ((0 : ℤ) < (0 : ℤ)) := by
  constructor
  · norm_num [coll3, coll2, coll1, updateKline, alookup, astore]
  · decide

/-- C2 (amended): the recorded last-update instant of an in-progress bar
is always that bar's creation instant (`open_time`) — an invariant
`updateKline` preserves — hence every bar the aggregator finalizes and
appends has `close_time` *equal to* its `open_time` (the finalize stamp
reuses the creation time), not `open_time < close_time`. -/
theorem c2_finalized_bar_times :
    (∀ (c : KlineCollector) (sym : String) (p : ℚ) (now : ℤ),
      CollectorInv c → CollectorInv (updateKline c sym p now)) ∧
    (∀ (c : KlineCollector) (sym : String) (p : ℚ) (now : ℤ) (b : KBar),
      CollectorInv c →
      alookup c.current_kline sym = some b →
      now - b.open_time ≥ c.kline_interval →
      ∃ bars, alookup (updateKline c sym p now).klines sym = some bars ∧
        bars.getLast? = some { b with close_time := b.open_time }) := by
  constructor
  · intro c sym p now hinv s' b' hlk
    cases h0 : alookup c.current_kline sym with
    | none =>
        simp only [updateKline, h0] at hlk ⊢
        rw [alookup_astore] at hlk ⊢
        by_cases hs : sym = s'
        · rw [if_pos hs] at hlk ⊢
          cases hlk
          rfl
        · rw [if_neg hs] at hlk ⊢
          exact hinv s' b' hlk
    | some b =>
        by_cases hcond : now - (alookup c.last_update sym).getD now ≥
            c.kline_interval
        · simp only [updateKline, h0] at hlk ⊢
          rw [if_pos hcond] at hlk ⊢
          simp only at hlk ⊢
          rw [alookup_astore] at hlk ⊢
          by_cases hs : sym = s'
          · rw [if_pos hs] at hlk ⊢
            cases hlk
            rfl
          · rw [if_neg hs] at hlk ⊢
            exact hinv s' b' hlk
        · simp only [updateKline, h0] at hlk ⊢
          rw [if_neg hcond] at hlk ⊢
          simp only at hlk ⊢
          rw [alookup_astore] at hlk
          by_cases hs : sym = s'
          · rw [if_pos hs] at hlk
            cases hlk
            have := hinv sym b h0
            rw [← hs]
            exact this
          · rw [if_neg hs] at hlk
            exact hinv s' b' hlk
  · intro c sym p now b hinv hb hge
    have ht : alookup c.last_update sym = some b.open_time := hinv sym b hb
    exact (updateKline_finalize c sym p now b b.open_time hb ht hge).1

/-- Witness for C2's amended statement: the finalized bar of the
concrete scenario carries `close_time = open_time = 0`. -/
theorem c2_witness :
    ((alookup (updateKline coll2 "S" 95 35).klines "S").getD []).getLast? =
      some { open_time := 0, open_price := 100, high := 105, low := 100,
             close := 105, volume := 0, close_time := 0 } := by
  have hinv : CollectorInv coll2 := by
    intro sym b h
    have h2 : alookup coll2.current_kline sym =
        alookup [("S", (⟨0, 100, 105, 100, 105, 0, 10⟩ : KBar))] sym := by
      norm_num [coll2, coll1, updateKline, alookup, astore]
    rw [h2, alookup] at h
    have h3 : alookup coll2.last_update sym =
        alookup [("S", (0 : ℤ))] sym := by
      norm_num [coll2, coll1, updateKline, alookup, astore]
    rw [h3, alookup]
    by_cases hs : "S" = sym
    · rw [if_pos hs] at h
      cases h
      rw [if_pos hs]
    · rw [if_neg hs] at h
      cases h
  have hb : alookup coll2.current_kline "S" =
      some ⟨0, 100, 105, 100, 105, 0, 10⟩ := by
    norm_num [coll2, coll1, updateKline, alookup, astore]
  have hge : (35 : ℤ) - (⟨0, 100, 105, 100, 105, 0, 10⟩ : KBar).open_time ≥
      coll2.kline_interval := by
    have h30 : coll2.kline_interval = 30 := rfl
    rw [h30]
    norm_num
  obtain ⟨bars, hbars, hlast⟩ :=
    c2_finalized_bar_times.2 coll2 "S" 95 35 ⟨0, 100, 105, 100, 105, 0, 10⟩
      hinv hb hge
  rw [hbars]
  exact hlast

/-! ## Claim C7 -/

/-- C7: a tick with no existing bar opens one seeded entirely from the
snapshot close with volume 0; a tick within the interval folds the close
into high/low/close; a tick at or past the interval finalizes the bar,
appends it to the history and opens a fresh seeded bar — and on the
concrete scenario (interval 30; ticks (0,100), (10,105), (35,95)) the
finalized bar is {open 100, high 105, low 100, close 105} and the new
in-progress bar is seeded at 95. -/
theorem c7_tick_behaviour :
    (∀ (c : KlineCollector) (sym : String) (p : ℚ) (now : ℤ),
      alookup c.current_kline sym = none →
      alookup (updateKline c sym p now).current_kline sym =
        some ⟨now, p, p, p, p, 0, now⟩ ∧
      (updateKline c sym p now).klines = c.klines ∧
      alookup (updateKline c sym p now).last_update sym = some now) ∧
    (∀ (c : KlineCollector) (sym : String) (p : ℚ) (now : ℤ) (b : KBar)
      (t : ℤ),
      alookup c.current_kline sym = some b →
      alookup c.last_update sym = some t →
      now - t < c.kline_interval →
      alookup (updateKline c sym p now).current_kline sym =
        some { b with high := max b.high p, low := min b.low p,
                      close := p, close_time := now } ∧
      (updateKline c sym p now).klines = c.klines) ∧
    (∀ (c : KlineCollector) (sym : String) (p : ℚ) (now : ℤ) (b : KBar)
      (t : ℤ),
      alookup c.current_kline sym = some b →
      alookup c.last_update sym = some t →
      now - t ≥ c.kline_interval →
      (∃ bars, alookup (updateKline c sym p now).klines sym = some bars ∧
        bars.getLast? = some { b with close_time := t }) ∧
      alookup (updateKline c sym p now).current_kline sym =
        some ⟨now, p, p, p, p, 0, now⟩ ∧
      alookup (updateKline c sym p now).last_update sym = some now) ∧
    (alookup coll1.current_kline "S" = some ⟨0, 100, 100, 100, 100, 0, 0⟩ ∧
     alookup coll2.current_kline "S" = some ⟨0, 100, 105, 100, 105, 0, 10⟩ ∧
     (alookup coll3.klines "S").getD [] =
       [⟨0, 100, 105, 100, 105, 0, 0⟩] ∧
     alookup coll3.current_kline "S" = some ⟨35, 95, 95, 95, 95, 0, 35⟩) := by
  refine ⟨?_, ?_, ?_, ?_, ?_, ?_, ?_⟩
  · intro c sym p now h0
    refine ⟨?_, ?_, ?_⟩ <;> simp [updateKline, h0, alookup_astore]
  · intro c sym p now b t hb ht hlt
    have hcond : ¬ now - t ≥ c.kline_interval := by omega
    constructor
    · simp only [updateKline, hb, ht, Option.getD_some]
      rw [if_neg hcond]
      simp [alookup_astore]
    · simp only [updateKline, hb, ht, Option.getD_some]
      rw [if_neg hcond]
  · intro c sym p now b t hb ht hge
    exact updateKline_finalize c sym p now b t hb ht hge
  · norm_num [coll1, updateKline, alookup, astore]
  · norm_num [coll2, coll1, updateKline, alookup, astore]
  · norm_num [coll3, coll2, coll1, updateKline, alookup, astore]
  · norm_num [coll3, coll2, coll1, updateKline, alookup, astore]

/-- Witness for C7 on a fresh collector: the first tick opens a bar
seeded from the snapshot close. -/
theorem c7_witness :
    alookup (updateKline {} "T" 7 2).current_kline "T" =
      some ⟨2, 7, 7, 7, 7, 0, 2⟩ :=
  (c7_tick_behaviour.1 {} "T" 7 2 rfl).1

/-! ## Claim C10 -/

/-- C10: the history accessors (`get_klines`, `get_macd_history`,
`get_closed_trades`) treat a limit of 0 exactly like no limit — the
entire history is returned, never an empty list — while a positive limit
returns the suffix of the most recent `min n length` entries. -/
theorem c10_zero_limit_returns_all :
    (∀ (c : KlineCollector) (sym : String),
      getKlines c sym (some 0) = getKlines c sym none ∧
      getKlines c sym none = (alookup c.klines sym).getD [] ∧
      ((alookup c.klines sym).getD [] ≠ [] →
        getKlines c sym (some 0) ≠ []) ∧
      ∀ n : ℕ, 0 < n →
        (getKlines c sym (some n)).length =
          min n ((alookup c.klines sym).getD []).length ∧
        getKlines c sym (some n) <:+ (alookup c.klines sym).getD []) ∧
    (∀ s : MACDStrategy,
      getMacdHistory s (some 0) = getMacdHistory s none ∧
      getMacdHistory s none = s.macd_history ∧
      (s.macd_history ≠ [] → getMacdHistory s (some 0) ≠ []) ∧
      ∀ n : ℕ, 0 < n →
        (getMacdHistory s (some n)).length = min n s.macd_history.length ∧
        getMacdHistory s (some n) <:+ s.macd_history) ∧
    (∀ e : TradingEngine,
      getClosedTrades e (some 0) = getClosedTrades e none ∧
      getClosedTrades e none = e.closed_trades ∧
      (e.closed_trades ≠ [] → getClosedTrades e (some 0) ≠ []) ∧
      ∀ n : ℕ, 0 < n →
        (getClosedTrades e (some n)).length = min n e.closed_trades.length ∧
        getClosedTrades e (some n) <:+ e.closed_trades) := by
  refine ⟨?_, ?_, ?_⟩
  · intro c sym
    refine ⟨by simp [getKlines], by simp [getKlines], ?_, ?_⟩
    · intro hne
      simpa [getKlines] using hne
    · intro n hn
      constructor
      · simp [getKlines, hn.ne', List.length_drop]
        omega
      · simpa [getKlines, hn.ne'] using
          List.drop_suffix _ ((alookup c.klines sym).getD [])
  · intro s
    refine ⟨by simp [getMacdHistory], by simp [getMacdHistory], ?_, ?_⟩
    · intro hne
      simpa [getMacdHistory] using hne
    · intro n hn
      constructor
      · simp [getMacdHistory, hn.ne', List.length_drop]
        omega
      · simpa [getMacdHistory, hn.ne'] using
          List.drop_suffix _ s.macd_history
  · intro e
    refine ⟨by simp [getClosedTrades], by simp [getClosedTrades], ?_, ?_⟩
    · intro hne
      simpa [getClosedTrades] using hne
    · intro n hn
      constructor
      · simp [getClosedTrades, hn.ne', List.length_drop]
        omega
      · simpa [getClosedTrades, hn.ne'] using
          List.drop_suffix _ e.closed_trades

/-- Witness for C10 at the concrete collector state (its bar history for
"S" has one finalized bar). -/
theorem c10_witness :
    getKlines coll3 "S" (some 0) = getKlines coll3 "S" none ∧
    (0 < 1 ∧ getKlines coll3 "S" (some 1) <:+
      (alookup coll3.klines "S").getD []) :=
  ⟨(c10_zero_limit_returns_all.1 coll3 "S").1,
   by decide,
   ((c10_zero_limit_returns_all.1 coll3 "S").2.2.2 1 (by decide)).2⟩

end MACDSystem
